import Mathlib

/-!
Verification of the nlmortgage module: a closed-form financial calculator
producing monthly cash-flow schedules for annuity and linear mortgages,
asset appreciation, and overhead costs.

The Python source works on floating-point numpy arrays; we embed it over ℚ
(exact rational arithmetic), so statements the spec qualifies with
"within floating-point tolerance" become exact equalities here.

The source calls three functions of the numpy-financial library
(`npf.pmt`, `npf.ipmt`, `npf.ppmt`); these are embedded below from that
library's closed-form definitions (with `when='end'`, `fv=0`, the defaults
used by the source).
-/

/-- Source constant: `INTEREST_DEDUCTIBLE = 1 - 0.64`
(fraction of interest that is NOT deductible). -/
def INTEREST_DEDUCTIBLE : ℚ := 1 - 0.64

/-- Source constant: `YEARLY_INSURANCE = 0.0013`. -/
def YEARLY_INSURANCE : ℚ := 0.0013

/-- Source constant: `YEARLY_VVE = 0.005`. -/
def YEARLY_VVE : ℚ := 0.005

/-- Source constant: `YEARLY_WOZ = 0.000577`. -/
def YEARLY_WOZ : ℚ := 0.000577

/-- numpy-financial `pmt(rate, nper, pv)` with `fv = 0`, `when = 'end'`:
`pmt = -(fv + pv*(1+rate)^nper) / fact` where `fact = nper` if `rate = 0`
and `fact = ((1+rate)^nper - 1)/rate` otherwise. -/
def npf_pmt (rate : ℚ) (nper : ℕ) (pv : ℚ) : ℚ :=
  if rate = 0 then -(pv / nper)
  else -(pv * (1 + rate) ^ nper) * rate / ((1 + rate) ^ nper - 1)

/-- numpy-financial `fv(rate, nper, pmt, pv)` with `when = 'end'`:
`fv = -(pv*(1+rate)^nper + pmt*((1+rate)^nper - 1)/rate)`, and
`-(pv + pmt*nper)` when `rate = 0`. -/
def npf_fv (rate : ℚ) (nper : ℕ) (pmt pv : ℚ) : ℚ :=
  if rate = 0 then -(pv + pmt * nper)
  else -(pv * (1 + rate) ^ nper + pmt * ((1 + rate) ^ nper - 1) / rate)

/-- numpy-financial `ipmt(rate, nper, per, pv)` with `fv = 0`, `when = 'end'`:
the interest portion of period `per` (1-indexed), computed as
`rate` times the remaining balance `_rbl = fv(rate, per-1, pmt, pv)`. -/
def npf_ipmt (rate : ℚ) (nper per : ℕ) (pv : ℚ) : ℚ :=
  npf_fv rate (per - 1) (npf_pmt rate nper pv) pv * rate

/-- numpy-financial `ppmt(rate, nper, per, pv)`: `pmt - ipmt`. -/
def npf_ppmt (rate : ℚ) (nper per : ℕ) (pv : ℚ) : ℚ :=
  npf_pmt rate nper pv - npf_ipmt rate nper per pv

/-- numpy `cumsum` on a list, with running accumulator. -/
def np_cumsum_from (acc : ℚ) : List ℚ → List ℚ
  | [] => []
  | x :: xs => (acc + x) :: np_cumsum_from (acc + x) xs

/-- numpy `cumsum` on a list. -/
def np_cumsum (l : List ℚ) : List ℚ := np_cumsum_from 0 l

/-- Source line 23: `bruto_payments = [payment] * months`, the list of
gross annuity payments. -/
def annuity_bruto_payments (principal interest_rate : ℚ) (years : ℕ) : List ℚ :=
  List.replicate (years * 12) (npf_pmt (interest_rate / 12) (years * 12) (-principal))

/-- Source `annuity_mortgage(principal, interest_rate, years)`:
gross payment from `npf.pmt`, per-period interest from `npf.ipmt` over
periods `1..months`, net payment is gross minus the non-deductible
fraction of the interest. -/
def annuity_mortgage (principal interest_rate : ℚ) (years : ℕ) : List ℚ :=
  let monthly_rate := interest_rate / 12
  let months := years * 12
  let interest_payments :=
    (List.range months).map (fun i => npf_ipmt monthly_rate months (i + 1) (-principal))
  let interest_deductible := interest_payments.map (fun x => INTEREST_DEDUCTIBLE * x)
  List.zipWith (fun b d => b - d) (annuity_bruto_payments principal interest_rate years)
    interest_deductible

/-- Source `annuity_mortgage_remaining_principal(principal, interest_rate, years)`:
`principal - cumsum(npf.ppmt over periods 1..months)`. -/
def annuity_mortgage_remaining_principal (principal interest_rate : ℚ) (years : ℕ) : List ℚ :=
  let monthly_rate := interest_rate / 12
  let months := years * 12
  let payment :=
    (List.range months).map (fun i => npf_ppmt monthly_rate months (i + 1) (-principal))
  (np_cumsum payment).map (fun c => principal - c)

/-- Source `linear_mortgage_remaining_principal(principal, years)`:
`[principal - (principal/months) * i for i in range(months)]`. -/
def linear_mortgage_remaining_principal (principal : ℚ) (years : ℕ) : List ℚ :=
  let months := years * 12
  let linear_payment := principal / months
  (List.range months).map (fun i : ℕ => principal - linear_payment * (i : ℚ))

/-- Source `linear_mortgage(principal, interest_rate, years)`:
constant principal portion `principal/months`, plus interest on the
pre-payment balance, minus the deductible fraction of that interest. -/
def linear_mortgage (principal interest_rate : ℚ) (years : ℕ) : List ℚ :=
  let monthly_rate := interest_rate / 12
  let months := years * 12
  let linear_payment := principal / months
  let remaining := linear_mortgage_remaining_principal principal years
  let interest_payments := (List.range months).map (fun i => remaining.getD i 0 * monthly_rate)
  interest_payments.map (fun ip => linear_payment + ip - INTEREST_DEDUCTIBLE * ip)

/-- Source `monthly_asset_appreciation(initial_asset_value, months, yearly_asset_appreciation)`:
`[initial * (1 + yearly_rate/12)^i for i in range(months)]`. -/
def monthly_asset_appreciation (initial_asset_value : ℚ) (months : ℕ)
    (yearly_asset_appreciation : ℚ) : List ℚ :=
  let monthly := yearly_asset_appreciation / 12
  (List.range months).map (fun i => initial_asset_value * (1 + monthly) ^ i)

/-- Source `asset_appreciation(initial_asset_value, yearly_asset_appreciation, years)`. -/
def asset_appreciation (initial_asset_value yearly_asset_appreciation : ℚ)
    (years : ℕ) : List ℚ :=
  monthly_asset_appreciation initial_asset_value (years * 12) yearly_asset_appreciation

/-- Source `overhead_costs(initial_asset_value, yearly_asset_appreciation, years)`:
pointwise `house_value * (YEARLY_INSURANCE/12) + house_value * (YEARLY_VVE/12)
+ house_value * (YEARLY_WOZ/12)`. -/
def overhead_costs (initial_asset_value yearly_asset_appreciation : ℚ)
    (years : ℕ) : List ℚ :=
  let house := asset_appreciation initial_asset_value yearly_asset_appreciation years
  List.zipWith (fun a b => a + b)
    (List.zipWith (fun a b => a + b)
      (house.map (fun v => v * (YEARLY_INSURANCE / 12)))
      (house.map (fun v => v * (YEARLY_VVE / 12))))
    (house.map (fun v => v * (YEARLY_WOZ / 12)))

/-- Python scalar division, which raises `ZeroDivisionError` on a zero
divisor: embedded as a fallible operation. -/
def pydiv (a b : ℚ) : Option ℚ :=
  if b = 0 then none else some (a / b)

/-- Raising-semantics embedding of `linear_mortgage_remaining_principal`:
the division `principal / months` raises when `months = 0`. -/
def linear_mortgage_remaining_principalE (principal : ℚ) (years : ℕ) : Option (List ℚ) := do
  let months := years * 12
  let linear_payment ← pydiv principal months
  pure ((List.range months).map (fun i : ℕ => principal - linear_payment * (i : ℚ)))

/-- Raising-semantics embedding of `linear_mortgage`: the division
`principal / months` on source line 55 raises when `months = 0`, before
any schedule is built. -/
def linear_mortgageE (principal interest_rate : ℚ) (years : ℕ) : Option (List ℚ) := do
  let monthly_rate := interest_rate / 12
  let months := years * 12
  let linear_payment ← pydiv principal months
  let remaining ← linear_mortgage_remaining_principalE principal years
  let interest_payments := (List.range months).map (fun i => remaining.getD i 0 * monthly_rate)
  pure (interest_payments.map (fun ip => linear_payment + ip - INTEREST_DEDUCTIBLE * ip))

/-- Raising-semantics embedding of `asset_appreciation`: it performs no
zero division, so it never raises. -/
def asset_appreciationE (initial_asset_value yearly_asset_appreciation : ℚ)
    (years : ℕ) : Option (List ℚ) :=
  some (asset_appreciation initial_asset_value yearly_asset_appreciation years)

/-- Raising-semantics embedding of `overhead_costs`: it performs no zero
division, so it never raises. -/
def overhead_costsE (initial_asset_value yearly_asset_appreciation : ℚ)
    (years : ℕ) : Option (List ℚ) := do
  let house ← asset_appreciationE initial_asset_value yearly_asset_appreciation years
  pure (List.zipWith (fun a b => a + b)
    (List.zipWith (fun a b => a + b)
      (house.map (fun v => v * (YEARLY_INSURANCE / 12)))
      (house.map (fun v => v * (YEARLY_VVE / 12))))
    (house.map (fun v => v * (YEARLY_WOZ / 12))))

/-- Spec-side definition (standard annuity formula, §4.4 of the spec):
the constant gross payment for monthly rate `r` over `n` periods with
present value `principal`; degenerates to `principal/n` at `r = 0`. -/
def specAnnuityPayment (principal r : ℚ) (n : ℕ) : ℚ :=
  if r = 0 then principal / n
  else principal * r * (1 + r) ^ n / ((1 + r) ^ n - 1)

/-- Spec-side definition (§4.4 of the spec): the outstanding balance
before period `k+1`, starting from `principal` and evolving by
subtracting each period's principal portion `P - I`, where the interest
portion `I` is `r` times the balance before the period. -/
def specAnnuityBalance (principal r P : ℚ) : ℕ → ℚ
  | 0 => principal
  | k + 1 => specAnnuityBalance principal r P k - (P - r * specAnnuityBalance principal r P k)

/-! ## Helper lemmas: list indexing -/

lemma getD_map_range (f : ℕ → ℚ) {m i : ℕ} (h : i < m) :
    ((List.range m).map f).getD i 0 = f i := by
  rw [List.getD_eq_getElem?_getD, List.getElem?_map, List.getElem?_range h]
  rfl

lemma getD_map_lt (f : ℚ → ℚ) (l : List ℚ) (i : ℕ) (h : i < l.length) :
    (l.map f).getD i 0 = f (l.getD i 0) := by
  rw [List.getD_eq_getElem?_getD, List.getElem?_map, List.getElem?_eq_getElem h,
    List.getD_eq_getElem?_getD, List.getElem?_eq_getElem h]
  rfl

lemma zipWith_replicate_left (f : ℚ → ℚ → ℚ) (c : ℚ) :
    ∀ l : List ℚ, List.zipWith f (List.replicate l.length c) l = l.map (f c)
  | [] => rfl
  | x :: xs => by
    simp only [List.length_cons, List.replicate_succ, List.zipWith_cons_cons, List.map_cons]
    rw [zipWith_replicate_left f c xs]

lemma zipWith_replicate_left_of_length (f : ℚ → ℚ → ℚ) (c : ℚ) (l : List ℚ) (m : ℕ)
    (h : l.length = m) : List.zipWith f (List.replicate m c) l = l.map (f c) := by
  subst h; exact zipWith_replicate_left f c l

lemma zipWith_add_map (f g : ℚ → ℚ) (l : List ℚ) :
    List.zipWith (fun a b => a + b) (l.map f) (l.map g) = l.map (fun x => f x + g x) := by
  induction l with
  | nil => rfl
  | cons x xs ih => simp only [List.map_cons, List.zipWith_cons_cons, ih]

lemma np_cumsum_from_length : ∀ (l : List ℚ) (acc : ℚ),
    (np_cumsum_from acc l).length = l.length
  | [], _ => rfl
  | _ :: xs, acc => by
    simp only [np_cumsum_from, List.length_cons]
    rw [np_cumsum_from_length xs]

lemma np_cumsum_from_getD : ∀ (l : List ℚ) (acc : ℚ) (i : ℕ), i < l.length →
    (np_cumsum_from acc l).getD i 0 = acc + (l.take (i + 1)).sum
  | [], _, i, h => by simp at h
  | x :: xs, acc, 0, _ => by
    simp [np_cumsum_from]
  | x :: xs, acc, i + 1, h => by
    have ih := np_cumsum_from_getD xs (acc + x) i (by simpa using h)
    simp only [np_cumsum_from, List.getD_cons_succ, List.take_succ_cons, List.sum_cons]
    rw [ih]; ring

/-! ## Helper lemmas: the npf closed forms and the annuity recurrence -/

lemma npf_fv_zero (r P pv : ℚ) : npf_fv r 0 P pv = -pv := by
  unfold npf_fv
  split <;> simp

lemma npf_fv_succ (r : ℚ) (k : ℕ) (P pv : ℚ) :
    npf_fv r (k + 1) P pv = (1 + r) * npf_fv r k P pv - P := by
  unfold npf_fv
  rcases eq_or_ne r 0 with h | h
  · simp only [h, if_pos rfl]
    push_cast
    ring
  · simp only [if_neg h]
    field_simp
    ring

lemma specAnnuityBalance_eq_npf_fv (p r P : ℚ) :
    ∀ k, specAnnuityBalance p r P k = npf_fv r k P (-p)
  | 0 => by rw [npf_fv_zero, neg_neg]; rfl
  | k + 1 => by
    rw [npf_fv_succ]
    show specAnnuityBalance p r P k - (P - r * specAnnuityBalance p r P k) = _
    rw [specAnnuityBalance_eq_npf_fv p r P k]
    ring

lemma npf_fv_sub_succ (r : ℚ) (k : ℕ) (P pv : ℚ) :
    npf_fv r k P pv - npf_fv r (k + 1) P pv = P - r * npf_fv r k P pv := by
  rw [npf_fv_succ]; ring

lemma npf_fv_diff_geom (r P pv : ℚ) : ∀ k,
    npf_fv r k P pv - npf_fv r (k + 1) P pv = (P + r * pv) * (1 + r) ^ k
  | 0 => by
    rw [npf_fv_sub_succ, npf_fv_zero]
    ring
  | k + 1 => by
    have hk := npf_fv_diff_geom r P pv k
    rw [npf_fv_sub_succ] at hk ⊢
    rw [npf_fv_succ]
    linear_combination (1 + r) * hk

lemma one_lt_one_add_pow (r : ℚ) (hr : 0 < r) (n : ℕ) (hn : n ≠ 0) :
    1 < (1 + r) ^ n :=
  one_lt_pow₀ (by linarith) hn

lemma npf_pmt_eq_spec (p r : ℚ) (n : ℕ) :
    npf_pmt r n (-p) = specAnnuityPayment p r n := by
  unfold npf_pmt specAnnuityPayment
  split <;> ring

lemma npf_pmt_sub_pos (r p : ℚ) (n : ℕ) (hr : 0 ≤ r) (hp : 0 < p) (hn : n ≠ 0) :
    0 < npf_pmt r n (-p) - r * p := by
  rcases eq_or_lt_of_le hr with h | h
  · have hn' : 0 < (n : ℚ) := by
      exact_mod_cast Nat.pos_of_ne_zero hn
    unfold npf_pmt
    rw [if_pos h.symm, ← h]
    simp only [mul_zero, zero_mul, sub_zero, neg_div, neg_neg]
    positivity
  · have hq : 1 < (1 + r) ^ n := one_lt_one_add_pow r h n hn
    unfold npf_pmt
    rw [if_neg (ne_of_gt h)]
    have hq' : (0 : ℚ) < (1 + r) ^ n - 1 := by linarith
    have key : -(-p * (1 + r) ^ n) * r / ((1 + r) ^ n - 1) - r * p
        = r * p / ((1 + r) ^ n - 1) := by
      field_simp
      ring
    rw [key]
    positivity

lemma npf_fv_pmt_eq_zero (r p : ℚ) (n : ℕ) (hr : 0 ≤ r) (hn : n ≠ 0) :
    npf_fv r n (npf_pmt r n (-p)) (-p) = 0 := by
  have hn' : (n : ℚ) ≠ 0 := by
    exact_mod_cast hn
  rcases eq_or_lt_of_le hr with h | h
  · unfold npf_fv npf_pmt
    rw [if_pos h.symm, if_pos h.symm]
    field_simp
  · have hq : 1 < (1 + r) ^ n := one_lt_one_add_pow r h n hn
    have hq' : (1 + r) ^ n - 1 ≠ 0 := by linarith
    unfold npf_fv npf_pmt
    rw [if_neg (ne_of_gt h), if_neg (ne_of_gt h)]
    field_simp

lemma sum_ppmt_range (r p : ℚ) (n : ℕ) : ∀ m,
    ((List.range m).map (fun i => npf_ppmt r n (i + 1) (-p))).sum
      = p - npf_fv r m (npf_pmt r n (-p)) (-p)
  | 0 => by simp [npf_fv_zero]
  | m + 1 => by
    rw [List.range_succ, List.map_append, List.sum_append]
    simp only [List.map_cons, List.map_nil, List.sum_cons, List.sum_nil]
    rw [sum_ppmt_range r p n m]
    unfold npf_ppmt npf_ipmt
    simp only [Nat.add_sub_cancel]
    rw [npf_fv_succ]
    ring

/-! ## Helper lemmas: schedule shapes and entries -/

lemma annuity_mortgage_eq_map (p r : ℚ) (y : ℕ) :
    annuity_mortgage p r y = (List.range (y * 12)).map (fun i =>
      npf_pmt (r / 12) (y * 12) (-p)
        - INTEREST_DEDUCTIBLE * npf_ipmt (r / 12) (y * 12) (i + 1) (-p)) := by
  unfold annuity_mortgage annuity_bruto_payments
  rw [zipWith_replicate_left_of_length _ _ _ _ (by simp)]
  simp only [List.map_map]
  rfl

lemma annuity_mortgage_length (p r : ℚ) (y : ℕ) :
    (annuity_mortgage p r y).length = y * 12 := by
  rw [annuity_mortgage_eq_map]
  simp

lemma annuity_mortgage_getD (p r : ℚ) (y i : ℕ) (h : i < y * 12) :
    (annuity_mortgage p r y).getD i 0
      = npf_pmt (r / 12) (y * 12) (-p)
        - INTEREST_DEDUCTIBLE * npf_ipmt (r / 12) (y * 12) (i + 1) (-p) := by
  rw [annuity_mortgage_eq_map]
  exact getD_map_range _ h

lemma annuity_remaining_length (p r : ℚ) (y : ℕ) :
    (annuity_mortgage_remaining_principal p r y).length = y * 12 := by
  unfold annuity_mortgage_remaining_principal np_cumsum
  rw [List.length_map, np_cumsum_from_length]
  simp

lemma annuity_remaining_getD (p r : ℚ) (y i : ℕ) (h : i < y * 12) :
    (annuity_mortgage_remaining_principal p r y).getD i 0
      = npf_fv (r / 12) (i + 1) (npf_pmt (r / 12) (y * 12) (-p)) (-p) := by
  unfold annuity_mortgage_remaining_principal np_cumsum
  rw [getD_map_lt _ _ _ (by rw [np_cumsum_from_length]; simpa using h)]
  rw [np_cumsum_from_getD _ _ _ (by simpa using h)]
  rw [← List.map_take, List.take_range, Nat.min_eq_left h]
  rw [sum_ppmt_range]
  ring

lemma linear_remaining_length (p : ℚ) (y : ℕ) :
    (linear_mortgage_remaining_principal p y).length = y * 12 := by
  unfold linear_mortgage_remaining_principal
  simp

lemma linear_remaining_getD (p : ℚ) (y i : ℕ) (h : i < y * 12) :
    (linear_mortgage_remaining_principal p y).getD i 0
      = p - p / (y * 12 : ℕ) * i := by
  unfold linear_mortgage_remaining_principal
  exact getD_map_range _ h

lemma linear_mortgage_length (p r : ℚ) (y : ℕ) :
    (linear_mortgage p r y).length = y * 12 := by
  unfold linear_mortgage
  simp

lemma linear_mortgage_getD (p r : ℚ) (y i : ℕ) (h : i < y * 12) :
    (linear_mortgage p r y).getD i 0
      = p / (y * 12 : ℕ)
        + (p - p / (y * 12 : ℕ) * i) * (r / 12)
        - INTEREST_DEDUCTIBLE * ((p - p / (y * 12 : ℕ) * i) * (r / 12)) := by
  unfold linear_mortgage
  dsimp only
  rw [getD_map_lt _ _ _ (by simpa using h), getD_map_range _ h,
    linear_remaining_getD p y i h]

lemma monthly_asset_appreciation_length (v : ℚ) (m : ℕ) (r : ℚ) :
    (monthly_asset_appreciation v m r).length = m := by
  unfold monthly_asset_appreciation
  simp

lemma monthly_asset_appreciation_getD (v : ℚ) (m : ℕ) (r : ℚ) (i : ℕ) (h : i < m) :
    (monthly_asset_appreciation v m r).getD i 0 = v * (1 + r / 12) ^ i := by
  unfold monthly_asset_appreciation
  exact getD_map_range _ h

lemma overhead_costs_eq_map (v r : ℚ) (y : ℕ) :
    overhead_costs v r y = (List.range (y * 12)).map (fun i =>
      v * (1 + r / 12) ^ i * (YEARLY_INSURANCE / 12)
        + v * (1 + r / 12) ^ i * (YEARLY_VVE / 12)
        + v * (1 + r / 12) ^ i * (YEARLY_WOZ / 12)) := by
  unfold overhead_costs asset_appreciation monthly_asset_appreciation
  dsimp only
  rw [zipWith_add_map, zipWith_add_map]
  simp only [List.map_map]
  rfl

lemma overhead_costs_length (v r : ℚ) (y : ℕ) :
    (overhead_costs v r y).length = y * 12 := by
  rw [overhead_costs_eq_map]
  simp

lemma overhead_costs_getD (v r : ℚ) (y i : ℕ) (h : i < y * 12) :
    (overhead_costs v r y).getD i 0
      = v * (1 + r / 12) ^ i * (YEARLY_INSURANCE / 12)
        + v * (1 + r / 12) ^ i * (YEARLY_VVE / 12)
        + v * (1 + r / 12) ^ i * (YEARLY_WOZ / 12) := by
  rw [overhead_costs_eq_map]
  exact getD_map_range _ h

lemma getD_replicate (c : ℚ) {n i : ℕ} (h : i < n) :
    (List.replicate n c).getD i 0 = c := by
  rw [List.getD_eq_getElem?_getD, List.getElem?_replicate, if_pos h]
  rfl

lemma linear_mortgage_eq_map (p r : ℚ) (y : ℕ) :
    linear_mortgage p r y = (List.range (y * 12)).map (fun i =>
      p / (y * 12 : ℕ)
        + (linear_mortgage_remaining_principal p y).getD i 0 * (r / 12)
        - INTEREST_DEDUCTIBLE
          * ((linear_mortgage_remaining_principal p y).getD i 0 * (r / 12))) := by
  unfold linear_mortgage
  dsimp only
  rw [List.map_map]
  rfl

/-! ## Claim theorems -/

/-- C1: for every principal > 0, interest_rate ≥ 0 and years > 0,
`annuity_mortgage` returns a sequence of length years*12 whose entry for
period k (k = 1..months) equals P - INTEREST_DEDUCTIBLE * I_k, where P is
the constant gross payment of the standard annuity formula at monthly rate
r = interest_rate/12 over n = years*12 periods with present value equal to
principal, and I_k = r * (outstanding balance before period k), the balance
evolving by subtracting each period's principal portion; in particular for
principal = 300000, interest_rate = 0.04, years = 30 the sequence has
length 360, the gross payment is within 0.01 of 1432.25, and the first net
payment equals gross payment - 0.36 * (interest of month 1). -/
theorem C1_annuity_mortgage_decomposition (p r : ℚ) (y : ℕ)
    (hp : 0 < p) (hr : 0 ≤ r) (hy : 0 < y) :
    ((annuity_mortgage p r y).length = y * 12
      ∧ ∀ k, 1 ≤ k → k ≤ y * 12 →
          (annuity_mortgage p r y).getD (k - 1) 0
            = specAnnuityPayment p (r / 12) (y * 12)
              - INTEREST_DEDUCTIBLE
                * (r / 12 * specAnnuityBalance p (r / 12)
                    (specAnnuityPayment p (r / 12) (y * 12)) (k - 1)))
    ∧ ((annuity_mortgage 300000 (1 / 25) 30).length = 360
      ∧ |npf_pmt (1 / 25 / 12) 360 (-300000) - 1432.25| < 1 / 100
      ∧ (annuity_mortgage 300000 (1 / 25) 30).getD 0 0
          = npf_pmt (1 / 25 / 12) 360 (-300000)
            - INTEREST_DEDUCTIBLE * npf_ipmt (1 / 25 / 12) 360 1 (-300000)) := by
  refine ⟨⟨annuity_mortgage_length p r y, fun k hk1 hk2 => ?_⟩, ?_, ?_, ?_⟩
  · have hlt : k - 1 < y * 12 := by omega
    rw [annuity_mortgage_getD p r y (k - 1) hlt]
    unfold npf_ipmt
    rw [npf_pmt_eq_spec, specAnnuityBalance_eq_npf_fv]
    simp only [Nat.add_sub_cancel]
    ring
  · rw [annuity_mortgage_length]
  · have h0 : (1 / 25 / 12 : ℚ) ≠ 0 := by norm_num
    unfold npf_pmt
    rw [if_neg h0, abs_sub_lt_iff]
    norm_num
  · rw [annuity_mortgage_getD 300000 (1 / 25) 30 0 (by norm_num)]

/-- Witness for C1 at principal = 300000, interest_rate = 1/25, years = 30,
period k = 1. -/
theorem C1_witness :
    (annuity_mortgage 300000 (1 / 25) 30).getD 0 0
      = specAnnuityPayment 300000 (1 / 25 / 12) (30 * 12)
        - INTEREST_DEDUCTIBLE
          * (1 / 25 / 12 * specAnnuityBalance 300000 (1 / 25 / 12)
              (specAnnuityPayment 300000 (1 / 25 / 12) (30 * 12)) 0) :=
  (C1_annuity_mortgage_decomposition 300000 (1 / 25) 30 (by norm_num) (by norm_num)
    (by norm_num)).1.2 1 (by norm_num) (by norm_num)

/-- C2: for every principal > 0 and years > 0 with months = years*12,
`linear_mortgage_remaining_principal` has length months, entry i equal to
principal - (principal/months)*i, first entry principal, consecutive
entries differing by exactly principal/months, and last entry
principal - (principal/months)*(months-1); in particular at
(120000, 10) the length is 120, the first element 120000 and the last
element 1000. -/
theorem C2_linear_remaining_principal (p : ℚ) (y : ℕ) (hp : 0 < p) (hy : 0 < y) :
    ((linear_mortgage_remaining_principal p y).length = y * 12
      ∧ (∀ i, i < y * 12 →
          (linear_mortgage_remaining_principal p y).getD i 0
            = p - p / (y * 12 : ℕ) * i)
      ∧ (linear_mortgage_remaining_principal p y).getD 0 0 = p
      ∧ (∀ i, i + 1 < y * 12 →
          (linear_mortgage_remaining_principal p y).getD i 0
              - (linear_mortgage_remaining_principal p y).getD (i + 1) 0
            = p / (y * 12 : ℕ))
      ∧ (linear_mortgage_remaining_principal p y).getD (y * 12 - 1) 0
          = p - p / (y * 12 : ℕ) * ((y * 12 - 1 : ℕ) : ℚ))
    ∧ ((linear_mortgage_remaining_principal 120000 10).length = 120
      ∧ (linear_mortgage_remaining_principal 120000 10).getD 0 0 = 120000
      ∧ (linear_mortgage_remaining_principal 120000 10).getD 119 0 = 1000) := by
  have hm : 0 < y * 12 := by omega
  refine ⟨⟨linear_remaining_length p y, fun i hi => linear_remaining_getD p y i hi,
      ?_, fun i hi => ?_, linear_remaining_getD p y (y * 12 - 1) (by omega)⟩,
    linear_remaining_length 120000 10, ?_, ?_⟩
  · rw [linear_remaining_getD p y 0 hm]
    norm_num
  · rw [linear_remaining_getD p y i (by omega), linear_remaining_getD p y (i + 1) hi]
    push_cast
    ring
  · rw [linear_remaining_getD 120000 10 0 (by norm_num)]
    norm_num
  · rw [linear_remaining_getD 120000 10 119 (by norm_num)]
    norm_num

/-- Witness for C2 at principal = 120000, years = 10. -/
theorem C2_witness :
    (linear_mortgage_remaining_principal 120000 10).getD 0 0 = 120000 :=
  (C2_linear_remaining_principal 120000 10 (by norm_num) (by norm_num)).2.2.1

/-- C3: for every principal > 0, interest_rate ≥ 0 and years > 0, the
annuity schedule amortizes fully: the sum over all years*12 periods of the
principal portions (gross payment minus interest portion) equals the
principal exactly, and the last entry of
`annuity_mortgage_remaining_principal` equals 0 exactly. -/
theorem C3_annuity_full_amortization (p r : ℚ) (y : ℕ)
    (hp : 0 < p) (hr : 0 ≤ r) (hy : 0 < y) :
    ((List.range (y * 12)).map (fun k => npf_ppmt (r / 12) (y * 12) (k + 1) (-p))).sum = p
    ∧ (annuity_mortgage_remaining_principal p r y).getD (y * 12 - 1) 0 = 0 := by
  have hn : y * 12 ≠ 0 := by omega
  have hrm : 0 ≤ r / 12 := by positivity
  constructor
  · rw [sum_ppmt_range, npf_fv_pmt_eq_zero _ _ _ hrm hn]
    ring
  · rw [annuity_remaining_getD p r y _ (by omega)]
    have hsucc : y * 12 - 1 + 1 = y * 12 := by omega
    rw [hsucc, npf_fv_pmt_eq_zero _ _ _ hrm hn]

/-- Witness for C3 at principal = 1, interest_rate = 1/2, years = 1. -/
theorem C3_witness :
    ((List.range (1 * 12)).map (fun k => npf_ppmt (1 / 2 / 12) (1 * 12) (k + 1) (-1))).sum = 1 :=
  (C3_annuity_full_amortization 1 (1 / 2) 1 (by norm_num) (by norm_num) (by norm_num)).1

lemma INTEREST_DEDUCTIBLE_pos : 0 < INTEREST_DEDUCTIBLE := by
  norm_num [INTEREST_DEDUCTIBLE]

lemma annuity_net_diff (p r : ℚ) (y i : ℕ) (h : i + 1 < y * 12) :
    (annuity_mortgage p r y).getD (i + 1) 0 - (annuity_mortgage p r y).getD i 0
      = INTEREST_DEDUCTIBLE * (r / 12)
          * (npf_pmt (r / 12) (y * 12) (-p) - r / 12 * p) * (1 + r / 12) ^ i := by
  rw [annuity_mortgage_getD p r y (i + 1) h, annuity_mortgage_getD p r y i (by omega)]
  unfold npf_ipmt
  simp only [Nat.add_sub_cancel]
  have hd := npf_fv_diff_geom (r / 12) (npf_pmt (r / 12) (y * 12) (-p)) (-p) i
  linear_combination INTEREST_DEDUCTIBLE * (r / 12) * hd

lemma annuity_ipmt_diff (p r : ℚ) (y i : ℕ) :
    npf_ipmt (r / 12) (y * 12) (i + 1) (-p) - npf_ipmt (r / 12) (y * 12) (i + 2) (-p)
      = r / 12 * (npf_pmt (r / 12) (y * 12) (-p) - r / 12 * p) * (1 + r / 12) ^ i := by
  unfold npf_ipmt
  simp only [Nat.add_sub_cancel, show ∀ i : ℕ, i + 2 - 1 = i + 1 from fun _ => rfl]
  have hd := npf_fv_diff_geom (r / 12) (npf_pmt (r / 12) (y * 12) (-p)) (-p) i
  linear_combination (r / 12) * hd

/-- C4: for every principal > 0, interest_rate ≥ 0 and years > 0, the gross
annuity payment used by `annuity_mortgage` is identical across all years*12
periods, the net payment sequence is non-decreasing from each month to the
next, and when the interest rate is positive the interest portion strictly
shrinks and the net payment strictly rises. -/
theorem C4_annuity_constant_gross_rising_net (p r : ℚ) (y : ℕ)
    (hp : 0 < p) (hr : 0 ≤ r) (hy : 0 < y) :
    (∀ i j, i < y * 12 → j < y * 12 →
        (annuity_bruto_payments p r y).getD i 0 = (annuity_bruto_payments p r y).getD j 0)
    ∧ (∀ i, i + 1 < y * 12 →
        (annuity_mortgage p r y).getD i 0 ≤ (annuity_mortgage p r y).getD (i + 1) 0)
    ∧ (0 < r → ∀ i, i + 1 < y * 12 →
        npf_ipmt (r / 12) (y * 12) (i + 2) (-p) < npf_ipmt (r / 12) (y * 12) (i + 1) (-p)
        ∧ (annuity_mortgage p r y).getD i 0 < (annuity_mortgage p r y).getD (i + 1) 0) := by
  have hn : y * 12 ≠ 0 := by omega
  have hrm : 0 ≤ r / 12 := by positivity
  have hsub := npf_pmt_sub_pos (r / 12) p (y * 12) hrm hp hn
  have hpow : ∀ i : ℕ, (0 : ℚ) < (1 + r / 12) ^ i := fun i => by positivity
  refine ⟨fun i j hi hj => ?_, fun i hi => ?_, fun hr0 i hi => ⟨?_, ?_⟩⟩
  · unfold annuity_bruto_payments
    rw [getD_replicate _ hi, getD_replicate _ hj]
  · have hd := annuity_net_diff p r y i hi
    have hge : 0 ≤ INTEREST_DEDUCTIBLE * (r / 12)
        * (npf_pmt (r / 12) (y * 12) (-p) - r / 12 * p) * (1 + r / 12) ^ i :=
      mul_nonneg (mul_nonneg (mul_nonneg INTEREST_DEDUCTIBLE_pos.le hrm) hsub.le)
        (hpow i).le
    linarith
  · have hd := annuity_ipmt_diff p r y i
    have hgt : 0 < r / 12 * (npf_pmt (r / 12) (y * 12) (-p) - r / 12 * p)
        * (1 + r / 12) ^ i :=
      mul_pos (mul_pos (by positivity) hsub) (hpow i)
    linarith
  · have hd := annuity_net_diff p r y i hi
    have hgt : 0 < INTEREST_DEDUCTIBLE * (r / 12)
        * (npf_pmt (r / 12) (y * 12) (-p) - r / 12 * p) * (1 + r / 12) ^ i :=
      mul_pos (mul_pos (mul_pos INTEREST_DEDUCTIBLE_pos (by positivity)) hsub) (hpow i)
    linarith

/-- Witness for C4 at principal = 1, interest_rate = 1/2, years = 1,
months 0 and 1. -/
theorem C4_witness :
    (annuity_mortgage 1 (1 / 2) 1).getD 0 0 ≤ (annuity_mortgage 1 (1 / 2) 1).getD 1 0 :=
  (C4_annuity_constant_gross_rising_net 1 (1 / 2) 1 (by norm_num) (by norm_num)
    (by norm_num)).2.1 0 (by norm_num)

/-- C5 counterexample: the claim quantifies over interest_rate ≥ 0, but at
interest_rate = 0 every interest component of the linear mortgage is 0 and
the net payments are all equal, so neither sequence strictly decreases
(shown at principal = 1, interest_rate = 0, years = 1). -/
theorem C5_counterexample :
    ¬ (∀ (p r : ℚ) (y : ℕ), 0 < p → 0 ≤ r → 0 < y →
        ∀ i, i + 1 < y * 12 →
          (linear_mortgage_remaining_principal p y).getD (i + 1) 0 * (r / 12)
              < (linear_mortgage_remaining_principal p y).getD i 0 * (r / 12)
            ∧ (linear_mortgage p r y).getD (i + 1) 0 < (linear_mortgage p r y).getD i 0) := by
  intro h
  have h1 := (h 1 0 1 (by norm_num) (le_refl 0) (by norm_num) 0 (by norm_num)).1
  norm_num at h1

/-- C5 (amended): for every principal > 0, interest_rate > 0 and years > 0,
the interest component remaining_principal[i] * interest_rate/12 of the
linear mortgage strictly decreases month over month, and the net payment
strictly decreases month over month. -/
theorem C5_linear_strict_decrease (p r : ℚ) (y : ℕ)
    (hp : 0 < p) (hr : 0 < r) (hy : 0 < y) :
    ∀ i, i + 1 < y * 12 →
      (linear_mortgage_remaining_principal p y).getD (i + 1) 0 * (r / 12)
          < (linear_mortgage_remaining_principal p y).getD i 0 * (r / 12)
        ∧ (linear_mortgage p r y).getD (i + 1) 0 < (linear_mortgage p r y).getD i 0 := by
  intro i hi
  have hm : (0 : ℚ) < ((y * 12 : ℕ) : ℚ) := by
    have : 0 < y * 12 := by omega
    exact_mod_cast this
  have hpm : 0 < p / ((y * 12 : ℕ) : ℚ) := div_pos hp hm
  have hr12 : (0 : ℚ) < r / 12 := by positivity
  have hprod : 0 < p / ((y * 12 : ℕ) : ℚ) * (r / 12) := mul_pos hpm hr12
  have h64 : (0 : ℚ) < 1 - INTEREST_DEDUCTIBLE := by norm_num [INTEREST_DEDUCTIBLE]
  rw [linear_remaining_getD p y (i + 1) hi, linear_remaining_getD p y i (by omega),
    linear_mortgage_getD p r y (i + 1) hi, linear_mortgage_getD p r y i (by omega)]
  push_cast at hprod ⊢
  constructor
  · nlinarith [hprod]
  · nlinarith [mul_pos h64 hprod]

/-- Witness for the amended C5 at principal = 1, interest_rate = 1,
years = 1, month 0. -/
theorem C5_witness :
    (linear_mortgage_remaining_principal 1 1).getD 1 0 * (1 / 12)
        < (linear_mortgage_remaining_principal 1 1).getD 0 0 * (1 / 12)
      ∧ (linear_mortgage 1 1 1).getD 1 0 < (linear_mortgage 1 1 1).getD 0 0 :=
  C5_linear_strict_decrease 1 1 1 (by norm_num) (by norm_num) (by norm_num) 0 (by norm_num)

/-- C6: for every initial_value, months ≥ 0 and yearly_rate (negative
allowed), `monthly_asset_appreciation` returns exactly months entries with
entry i equal to initial_value * (1 + yearly_rate/12)^i; months = 0 gives
the empty sequence and, when months > 0, the entry at month 0 equals
initial_value exactly. -/
theorem C6_asset_appreciation_contract (v : ℚ) (m : ℕ) (r : ℚ) :
    (monthly_asset_appreciation v m r).length = m
    ∧ (∀ i, i < m → (monthly_asset_appreciation v m r).getD i 0 = v * (1 + r / 12) ^ i)
    ∧ monthly_asset_appreciation v 0 r = []
    ∧ (0 < m → (monthly_asset_appreciation v m r).getD 0 0 = v) := by
  refine ⟨monthly_asset_appreciation_length v m r,
    fun i hi => monthly_asset_appreciation_getD v m r i hi, rfl, fun hm => ?_⟩
  rw [monthly_asset_appreciation_getD v m r 0 hm]
  ring

/-- Witness for C6 at initial_value = 5, months = 3, yearly_rate = -1,
month 2. -/
theorem C6_witness :
    (monthly_asset_appreciation 5 3 (-1)).getD 2 0 = 5 * (1 + (-1) / 12) ^ 2 :=
  (C6_asset_appreciation_contract 5 3 (-1)).2.1 2 (by norm_num)

lemma list_eq_of_getD (l1 l2 : List ℚ) (h1 : l1.length = l2.length)
    (h : ∀ i, i < l1.length → l1.getD i 0 = l2.getD i 0) : l1 = l2 := by
  apply List.ext_getElem h1
  intro i hi1 hi2
  have hD := h i hi1
  rw [List.getD_eq_getElem?_getD, List.getElem?_eq_getElem hi1,
    List.getD_eq_getElem?_getD, List.getElem?_eq_getElem hi2] at hD
  simpa using hD

/-- C7: for every initial_asset_value, yearly_asset_appreciation and
years > 0, `overhead_costs` has length years*12 and entry i equal to the
asset-appreciation value at month i times
(YEARLY_INSURANCE + YEARLY_VVE + YEARLY_WOZ)/12, with
YEARLY_INSURANCE = 0.0013, YEARLY_VVE = 0.005, YEARLY_WOZ = 0.000577; in
particular overhead_costs(400000, 0, 1) yields 12 identical values each
equal to 400000*(0.0013+0.005+0.000577)/12. -/
theorem C7_overhead_costs_contract (v r : ℚ) (y : ℕ) (hy : 0 < y) :
    ((overhead_costs v r y).length = y * 12
      ∧ (∀ i, i < y * 12 → (overhead_costs v r y).getD i 0
          = (asset_appreciation v r y).getD i 0
              * ((YEARLY_INSURANCE + YEARLY_VVE + YEARLY_WOZ) / 12))
      ∧ YEARLY_INSURANCE = 0.0013 ∧ YEARLY_VVE = 0.005 ∧ YEARLY_WOZ = 0.000577)
    ∧ ((overhead_costs 400000 0 1).length = 12
      ∧ ∀ i, i < 12 → (overhead_costs 400000 0 1).getD i 0
          = 400000 * ((0.0013 + 0.005 + 0.000577) / 12)) := by
  refine ⟨⟨overhead_costs_length v r y, fun i hi => ?_, rfl, rfl, rfl⟩, ?_, fun i hi => ?_⟩
  · rw [overhead_costs_getD v r y i hi]
    unfold asset_appreciation
    rw [monthly_asset_appreciation_getD v (y * 12) r i hi]
    ring
  · rw [overhead_costs_length]
  · rw [overhead_costs_getD 400000 0 1 i (by omega)]
    norm_num [YEARLY_INSURANCE, YEARLY_VVE, YEARLY_WOZ]

/-- Witness for C7 at initial_asset_value = 400000, appreciation 0,
years = 1, month 0. -/
theorem C7_witness :
    (overhead_costs 400000 0 1).getD 0 0 = 400000 * ((0.0013 + 0.005 + 0.000577) / 12) :=
  (C7_overhead_costs_contract 400000 0 1 (by norm_num)).2.2 0 (by norm_num)

/-- C8: for every initial_asset_value > 0 and years > 0, the overhead-cost
sequence is strictly increasing month over month when the appreciation rate
is positive, and constant when the appreciation rate is 0. -/
theorem C8_overhead_monotonicity (v r : ℚ) (y : ℕ) (hv : 0 < v) (hy : 0 < y) :
    (0 < r → ∀ i, i + 1 < y * 12 →
        (overhead_costs v r y).getD i 0 < (overhead_costs v r y).getD (i + 1) 0)
    ∧ (r = 0 → ∀ i j, i < y * 12 → j < y * 12 →
        (overhead_costs v r y).getD i 0 = (overhead_costs v r y).getD j 0) := by
  constructor
  · intro hr i hi
    rw [overhead_costs_getD v r y i (by omega), overhead_costs_getD v r y (i + 1) hi]
    have hq : (1 : ℚ) < 1 + r / 12 := by linarith
    have hpos : (0 : ℚ) < (1 + r / 12) ^ i := by positivity
    have hpow : (1 + r / 12) ^ i < (1 + r / 12) ^ (i + 1) := by
      calc (1 + r / 12) ^ i = (1 + r / 12) ^ i * 1 := by ring
        _ < (1 + r / 12) ^ i * (1 + r / 12) := mul_lt_mul_of_pos_left hq hpos
        _ = (1 + r / 12) ^ (i + 1) := by ring
    have hkey : 0 < v * ((1 + r / 12) ^ (i + 1) - (1 + r / 12) ^ i) :=
      mul_pos hv (by linarith)
    have hc : (0 : ℚ) < YEARLY_INSURANCE / 12 + YEARLY_VVE / 12 + YEARLY_WOZ / 12 := by
      norm_num [YEARLY_INSURANCE, YEARLY_VVE, YEARLY_WOZ]
    nlinarith [mul_pos hkey hc]
  · intro hr i j hi hj
    subst hr
    rw [overhead_costs_getD v 0 y i hi, overhead_costs_getD v 0 y j hj]
    norm_num

/-- Witness for C8 at initial_asset_value = 1, appreciation 1, years = 1,
months 0 and 1. -/
theorem C8_witness :
    (overhead_costs 1 1 1).getD 0 0 < (overhead_costs 1 1 1).getD 1 0 :=
  (C8_overhead_monotonicity 1 1 1 (by norm_num) (by norm_num)).1 (by norm_num) 0 (by norm_num)

/-- C9: no operation rejects malformed input with a designed validation
error: with years = 0, `asset_appreciation` and `overhead_costs` return the
empty sequence, while `linear_mortgage` and
`linear_mortgage_remaining_principal` fail with a zero-division when
computing principal/months (modelled as `none`). -/
theorem C9_no_input_validation (p r : ℚ) :
    asset_appreciationE p r 0 = some []
    ∧ overhead_costsE p r 0 = some []
    ∧ linear_mortgage_remaining_principalE p 0 = none
    ∧ linear_mortgageE p r 0 = none := by
  refine ⟨rfl, rfl, ?_, ?_⟩
  · simp [linear_mortgage_remaining_principalE, pydiv]
  · simp [linear_mortgageE, pydiv]

/-- C10: at interest_rate = 0, `annuity_mortgage` and `linear_mortgage`
return the same sequence, and every entry of both equals
principal / (years*12). -/
theorem C10_zero_rate_equivalence (p : ℚ) (y : ℕ) (hp : 0 < p) (hy : 0 < y) :
    annuity_mortgage p 0 y = linear_mortgage p 0 y
    ∧ (∀ i, i < y * 12 → (annuity_mortgage p 0 y).getD i 0 = p / ((y * 12 : ℕ) : ℚ))
    ∧ (∀ i, i < y * 12 → (linear_mortgage p 0 y).getD i 0 = p / ((y * 12 : ℕ) : ℚ)) := by
  have hann : ∀ i, i < y * 12 →
      (annuity_mortgage p 0 y).getD i 0 = p / ((y * 12 : ℕ) : ℚ) := by
    intro i hi
    rw [annuity_mortgage_getD p 0 y i hi]
    unfold npf_ipmt npf_pmt npf_fv
    norm_num
    ring
  have hlin : ∀ i, i < y * 12 →
      (linear_mortgage p 0 y).getD i 0 = p / ((y * 12 : ℕ) : ℚ) := by
    intro i hi
    rw [linear_mortgage_getD p 0 y i hi]
    norm_num
  refine ⟨?_, hann, hlin⟩
  apply list_eq_of_getD
  · rw [annuity_mortgage_length, linear_mortgage_length]
  · intro i hi
    rw [annuity_mortgage_length] at hi
    rw [hann i hi, hlin i hi]

/-- Witness for C10 at principal = 1, years = 1. -/
theorem C10_witness : annuity_mortgage 1 0 1 = linear_mortgage 1 0 1 :=
  (C10_zero_rate_equivalence 1 1 (by norm_num) (by norm_num)).1
